import Mathlib

/-!
Verification of the pocketbot session supervisor against its specification.

The definitions below are a shallow embedding of the Go sources:
  * `cmd/pb/main.go` — the UI model, key routing, pickers, session naming,
    binding reconciliation and command rewriting;
  * `internal/tmux/tmux.go` — the per-session activity monitor;
  * `internal/tmux/tasks.go` — the user-task filter.

External tmux state (which sessions exist, their working directories, the
results of issuing tmux commands) is passed in explicitly as a `World`
value; tmux commands issued by the supervisor are recorded as `Eff`
values.  Time is modelled as an integer timestamp (the Go zero time is 0).

Go's string primitives are re-implemented over `List Char` so that every
definition evaluates by kernel reduction on concrete inputs.
-/

namespace Pocketbot

/-- Whether a character is Go ASCII whitespace (`unicode.IsSpace` on the
command strings handled here). -/
def isSpaceChar (c : Char) : Bool :=
  c = ' ' ∨ c = '\t' ∨ c = '\n' ∨ c = '\r'

/-- Go `strings.Fields`: split around runs of whitespace. -/
def goFields (s : String) : List String :=
  ((s.toList.splitOnP isSpaceChar).filter (· ≠ [])).map String.mk

/-- Go `strings.TrimSpace`. -/
def goTrimSpace (s : String) : String :=
  String.mk ((s.toList.dropWhile isSpaceChar).reverse.dropWhile isSpaceChar).reverse

/-- Go `strings.ToLower` (ASCII). -/
def goToLower (s : String) : String :=
  String.mk (s.toList.map Char.toLower)

/-- Does the character list start with the given pattern? -/
def startsWithL : List Char → List Char → Bool
  | _, [] => true
  | [], _ :: _ => false
  | c :: cs, p :: ps => c = p && startsWithL cs ps

/-- Go `strings.HasPrefix`. -/
def goHasPre (s pre : String) : Bool :=
  startsWithL s.toList pre.toList

/-- Split a character list at the leftmost occurrence of a pattern,
returning the part before it and the part after it. -/
def findSub : List Char → List Char → Option (List Char × List Char)
  | s, pat =>
    if startsWithL s pat then some ([], s.drop pat.length)
    else
      match s with
      | [] => none
      | c :: cs =>
        match findSub cs pat with
        | some (pre, post) => some (c :: pre, post)
        | none => none

/-- Go `strings.Contains`. -/
def goContains (s pat : String) : Bool :=
  (findSub s.toList pat.toList).isSome

/-- Replace the leftmost occurrence of `pat` in `s` by `rep` (no change
when `pat` does not occur). -/
def replaceFirst (s pat rep : String) : String :=
  match findSub s.toList pat.toList with
  | some (pre, post) => String.mk (pre ++ rep.toList ++ post)
  | none => s

/-- Go `filepath.Base` restricted to what the task filter needs: the final
path element (trailing slashes stripped; empty path gives "."). -/
def goFilepathBase (s : String) : String :=
  if s = "" then "."
  else
    let t := String.mk (s.toList.reverse.dropWhile (· = '/')).reverse
    if t = "" then "/"
    else match (t.toList.splitOnP (· = '/')).reverse with
      | [] => t
      | last :: _ => String.mk last

/-- Byte-wise (code-point-wise) comparison of characters, as Go compares
ASCII session names. -/
def charLe (a b : Char) : Bool := a.toNat ≤ b.toNat

/-- Lexicographic order on character lists. -/
def lexLe : List Char → List Char → Bool
  | [], _ => true
  | _ :: _, [] => false
  | a :: as, b :: bs => if a = b then lexLe as bs else charLe a b

/-- Go `s < t`/`sort.Strings` string order. -/
def strLe (a b : String) : Bool := lexLe a.toList b.toList

/-- Insert a string into an ascending list, keeping it sorted. -/
def insertSorted (x : String) : List String → List String
  | [] => [x]
  | y :: ys => if strLe x y then x :: y :: ys else y :: insertSorted x ys

/-- Go `sort.Strings`: ascending lexicographic sort (session names are
distinct map keys, so any correct sort produces the same list). -/
def sortStrings (l : List String) : List String := l.foldr insertSorted []

/-! ## Process inspector (`internal/tmux/tasks.go`) -/

/-- A descendant process of a session pane (`tmux.Task`). -/
structure Task where
  pid : Int
  ppid : Int
  state : String
  command : String
deriving DecidableEq, Repr

/-- `isInfrastructureCommand` from `internal/tmux/tasks.go`: shell
wrappers, the three agent runtimes and the gopls helper are classified as
infrastructure (never a "user task"). -/
def isInfrastructureCommand (command : String) : Bool :=
  let cmd := goTrimSpace (goToLower command)
  if cmd = "" then true
  else
    match goFields cmd with
    | [] => true
    | w :: _ =>
      let bin := goFilepathBase w
      if bin = "sh" ∨ bin = "bash" ∨ bin = "zsh" ∨ bin = "fish" ∨
         bin = "claude" ∨ bin = "codex" ∨ bin = "agent" then true
      else if bin = "gopls" then true
      else if goContains cmd "gopls ** telemetry **" then true
      else false

/-- The leaf tasks of a raw task list: tasks that are the parent of no
other task in the list (the `children` counting loops of
`filterUserTasks`). -/
def leafTasks (tasks : List Task) : List Task :=
  tasks.filter (fun t => (tasks.filter (fun c => c.ppid = t.pid)).length = 0)

/-- `filterUserTasks` from `internal/tmux/tasks.go`: keep the leaf tasks,
drop the infrastructure ones — but when every leaf is infrastructure,
return the unfiltered leaf list. -/
def filterUserTasks (tasks : List Task) : List Task :=
  if tasks.length = 0 then []
  else
    let leaf := leafTasks tasks
    let filtered := leaf.filter (fun t => !isInfrastructureCommand t.command)
    if filtered.length > 0 then filtered else leaf

/-! ## Activity monitor (`internal/tmux/tmux.go`) -/

/-- `IdleTimeout` (5 s), with timestamps in milliseconds. -/
def idleTimeoutMs : Int := 5000

/-- The mutable per-session state of `tmux.Session` used by
`UpdateActivity`: the previous pane capture and the time of the last
observed change.  `tmux.NewSession` leaves both at their zero values. -/
structure ActivityState where
  lastCapture : String
  lastActivity : Int
deriving DecidableEq, Repr

/-- The state of a freshly created `tmux.Session` wrapper. -/
def newActivityState : ActivityState := { lastCapture := "", lastActivity := 0 }

/-- `Session.UpdateActivity` from `internal/tmux/tmux.go` as a pure step.
Inputs: whether the tmux session exists, the result of `capture-pane`
(`none` = error), and the current time.  Returns the active/idle verdict
together with the updated per-session state. -/
def updateActivity (st : ActivityState) (sessionAlive : Bool) (capture : Option String)
    (now : Int) : Bool × ActivityState :=
  if !sessionAlive then (false, st)
  else
    match capture with
    | none => (decide (now - st.lastActivity < idleTimeoutMs), st)
    | some current =>
      if current ≠ st.lastCapture then
        (true, { lastCapture := current, lastActivity := now })
      else
        (decide (now - st.lastActivity < idleTimeoutMs), st)

/-! ## Command rewriting (`cmd/pb/main.go`) -/

/-- `fallbackCommand` from `cmd/pb/main.go`: wrap the three known
"resume previous session" launch commands as `resume-form || plain-form`. -/
def fallbackCommand (tool command : String) : String :=
  if tool = "claude" then
    if command = "claude --continue --permission-mode acceptEdits" then
      "claude --continue --permission-mode acceptEdits || claude --permission-mode acceptEdits"
    else command
  else if tool = "codex" then
    if command = "codex resume --last" then
      "codex resume --last || codex"
    else command
  else if tool = "cursor" then
    if command = "agent resume" then
      "agent resume || agent"
    else command
  else command

/-! ## UI model and key router (`cmd/pb/main.go`) -/

/-- `uiMode` from `cmd/pb/main.go`. -/
inductive UiMode
  | modeHome | modeNewTool | modeKillTool | modePickAttach | modePickKill
  | modePickKillTask | modeDirJump
deriving DecidableEq, Repr

/-- `commandBinding`: the per-reconciliation snapshot of a running
session. -/
structure CommandBinding where
  sessionName : String
  cwd : String
  running : Bool
  lastSeen : Int
deriving DecidableEq, Repr

/-- `taskKillTarget`: one slot of the task-kill picker. -/
structure TaskKillTarget where
  session : String
  pid : Int
  command : String
deriving DecidableEq, Repr

/-- One tool section of the configuration (`config.ClaudeConfig` etc.). -/
structure ToolCfg where
  command : String
  key : String
  enabled : Bool
deriving DecidableEq, Repr

/-- A custom configured session (`config.SessionConfig`). -/
structure SessionCfg where
  name : String
  command : String
  key : String
deriving DecidableEq, Repr

/-- The `model` struct of `cmd/pb/main.go`, restricted to the fields the
claims are about.  `sessions` holds the keys of the `m.sessions` map (its
values are non-nil wrapper pointers whose only observable state is the
tmux session's existence, which lives in `World`); `bindings`,
`pickerTargets` and `taskKillTargets` are Go maps represented as
association lists.  The task-count display caches are omitted. -/
structure Model where
  claude : ToolCfg
  codex : ToolCfg
  cursor : ToolCfg
  customSessions : List SessionCfg
  sessions : List String
  bindings : List (String × CommandBinding)
  mode : UiMode
  pickerTool : String
  pickerTargets : List (String × String)
  taskKillTargets : List (String × TaskKillTarget)
  homeNotice : String
  dirQuery : String
  dirSuggestions : List String
  dirSelection : Int
  shouldAttach : Bool
  sessionToAttach : String
  hasFasder : Bool
  showTaskDetails : Bool
deriving DecidableEq, Repr

/-- The external environment: tmux server state and the other injected
dependencies of the model (`getwd`, `chdir`, `lookupDirs`,
`sessionUserTasksFn`, `killTaskPIDFn`).  Fallible operations return
`none` on success and `some errText` on failure. -/
structure World where
  live : String → Bool
  cwdOf : String → String
  currentDir : String
  createErr : String → String → Option String
  killErr : String → Option String
  killPIDErr : Int → Option String
  chdirErr : String → Option String
  lookupDirs : String → Option (List String)
  tasksOf : String → Option (List Task)
  now : Int

/-- A state-changing command issued to tmux / the OS. -/
inductive Eff
  | killServer
  | createSession (name command : String)
  | killSession (name : String)
  | killTaskPID (pid : Int)
  | changeDir (path : String)
deriving DecidableEq, Repr

/-- The outcome of one key-event step: the next model, the evolved
external world, the commands issued, and whether the UI loop quits. -/
structure StepResult where
  model : Model
  world : World
  effects : List Eff
  quit : Bool

/-- A successful `tmux new-session` makes the session live. -/
def World.createSession (w : World) (name : String) : World :=
  { w with live := fun n => if n = name then true else w.live n }

/-- A successful `tmux kill-session` removes the session. -/
def World.killSession (w : World) (name : String) : World :=
  { w with live := fun n => if n = name then false else w.live n }

/-- A successful `os.Chdir` changes the process working directory. -/
def World.changeDir (w : World) (path : String) : World :=
  { w with currentDir := path }

/-- Go map write (replace the value under an existing key, else append). -/
def mapSet {α : Type} (l : List (String × α)) (k : String) (v : α) : List (String × α) :=
  if l.any (fun p => p.1 = k) then
    l.map (fun p => if p.1 = k then (k, v) else p)
  else l ++ [(k, v)]

/-- Go map read (`v, ok := m[k]`): the value of the first entry with the
given key (`mapSet` keeps keys unique). -/
def mapGet {α : Type} : List (String × α) → String → Option α
  | [], _ => none
  | p :: l, k => if p.1 = k then some p.2 else mapGet l k

/-- `toolFromSessionName` from `cmd/pb/main.go`. -/
def toolFromSessionName (name : String) : String :=
  if name = "claude" ∨ goHasPre name "claude-" then "claude"
  else if name = "codex" ∨ goHasPre name "codex-" then "codex"
  else if name = "cursor" ∨ goHasPre name "cursor-" then "cursor"
  else ""

/-- `pickerKey` from `cmd/pb/main.go`: the i-th letter of
"abcdefghijklmnopqrstuvwxyz", or "" out of range. -/
def pickerKey (i : Nat) : String :=
  if i < 26 then String.mk [Char.ofNat (97 + i)] else ""

/-- The picker-population loop `for i := ...; m.pickerTargets[pickerKey(i)] = ...`
over an indexed candidate list, with Go map-write semantics. -/
def buildSlots {α : Type} (acc : List (String × α)) : List (Nat × α) → List (String × α)
  | [] => acc
  | (i, v) :: rest => buildSlots (mapSet acc (pickerKey i) v) rest

/-- `model.commandForTool`. -/
def Model.commandForTool (m : Model) (tool : String) : String :=
  if tool = "claude" then m.claude.command
  else if tool = "codex" then m.codex.command
  else if tool = "cursor" then m.cursor.command
  else ""

/-- The session names of `config.AllSessions()`: the enabled built-in
tools followed by the custom sessions. -/
def allSessionNames (m : Model) : List String :=
  (if m.claude.enabled then ["claude"] else []) ++
  (if m.codex.enabled then ["codex"] else []) ++
  (if m.cursor.enabled then ["cursor"] else []) ++
  m.customSessions.map (fun s => s.name)

/-- The session-map seeding of `initialModel`: one wrapper per configured
session, then one per already-running tmux session not yet present. -/
def initialSessions (configured running : List String) : List String :=
  let s1 := configured.foldl (fun acc name => if acc.contains name then acc else acc ++ [name]) []
  running.foldl (fun acc name => if acc.contains name then acc else acc ++ [name]) s1

/-- `model.runningToolSessions`: the running sessions of a tool, sorted.
(Wrapper pointers in `m.sessions` are never nil.) -/
def runningToolSessions (m : Model) (w : World) (tool : String) : List String :=
  sortStrings (m.sessions.filter (fun name => toolFromSessionName name = tool && w.live name))

/-- `model.toolSessionsInDir`: the bound sessions of a tool running in a
given directory, sorted. -/
def toolSessionsInDir (m : Model) (tool cwd : String) : List String :=
  sortStrings ((m.bindings.filter
    (fun p => toolFromSessionName p.1 = tool && p.2.running && p.2.cwd = cwd)).map Prod.fst)

/-- `model.toolAlreadyRunningInDir`. -/
def toolAlreadyRunningInDir (m : Model) (tool cwd : String) : Bool :=
  (toolSessionsInDir m tool cwd).length > 0

/-- `model.hasAnyRunningSessions`. -/
def hasAnyRunningSessions (m : Model) (w : World) : Bool :=
  m.sessions.any w.live

/-- `model.runningSessionNames`: all running sessions, sorted. -/
def runningSessionNames (m : Model) (w : World) : List String :=
  sortStrings (m.sessions.filter w.live)

/-- `model.refreshBindings`: write a fresh binding for every running
known session, then delete every binding whose session is not running. -/
def refreshBindings (m : Model) (w : World) : Model :=
  let step1 := m.sessions.foldl (fun b name =>
    if w.live name then
      mapSet b name { sessionName := name, cwd := w.cwdOf name, running := true, lastSeen := w.now }
    else b) m.bindings
  { m with bindings := step1.filter (fun p => m.sessions.contains p.1 && w.live p.1) }

/-- Decimal digit run → value. -/
def parseDigits (cs : List Char) : Option Nat :=
  let ds := cs.takeWhile (fun c => c.isDigit)
  if ds = [] then none
  else some (ds.foldl (fun acc c => acc * 10 + (c.toNat - 48)) 0)

/-- An optionally signed decimal integer, as `fmt`'s `%d` verb reads it
(leading input whitespace skipped, trailing input ignored). -/
def parseSignedInt (cs : List Char) : Option Int :=
  match cs with
  | '-' :: rest => (parseDigits rest).map (fun n => -(n : Int))
  | '+' :: rest => (parseDigits rest).map (fun n => (n : Int))
  | _ => (parseDigits cs).map (fun n => (n : Int))

/-- `fmt.Sscanf(name, tool+"-%d", &n)` as used by `nextSessionName`:
match the literal prefix `tool+"-"`, then scan an integer. -/
def goScanSuffix (tool name : String) : Option Int :=
  if goHasPre name (tool ++ "-") then
    parseSignedInt ((name.toList.drop (tool.length + 1)).dropWhile isSpaceChar)
  else none

/-- `model.nextSessionName`: the bare tool name if it is free among the
running sessions of the tool, else `tool-(max+1)` where `max` starts at 1
and takes in every scanned numeric suffix larger than it. -/
def nextSessionName (m : Model) (w : World) (tool : String) : String :=
  let names := runningToolSessions m w tool
  if !names.contains tool then tool
  else
    let maxSuffix := names.foldl (fun acc name =>
      match goScanSuffix tool name with
      | some n => if n > acc then n else acc
      | none => acc) 1
    tool ++ "-" ++ toString (maxSuffix + 1)

/-- `model.requestAttachSession`. -/
def requestAttachSession (m : Model) (w : World) (name : String) : StepResult :=
  ⟨{ m with shouldAttach := true, sessionToAttach := name, homeNotice := "", mode := .modeHome },
    w, [], true⟩

/-- `model.startAndAttachSession`: ensure a wrapper exists, start the tmux
session if it is not running (with the fallback-wrapped command), then
request the attach and quit the UI loop. -/
def startAndAttachSession (m : Model) (w : World) (name command : String) : StepResult :=
  let m := if m.sessions.contains name then m else { m with sessions := m.sessions ++ [name] }
  let attach : Model → World → List Eff → StepResult := fun m w effs =>
    let m := refreshBindings m w
    ⟨{ m with shouldAttach := true, sessionToAttach := name, homeNotice := "", mode := .modeHome },
      w, effs, true⟩
  if w.live name then attach m w []
  else
    let command := if command = "" then m.commandForTool (toolFromSessionName name) else command
    if command = "" then
      ⟨{ m with homeNotice := "session " ++ name ++ " is not running" }, w, [], false⟩
    else
      let launch := fallbackCommand (toolFromSessionName name) command
      match w.createErr name launch with
      | some e =>
        ⟨{ m with homeNotice := "failed to start " ++ name ++ ": " ++ e }, w,
          [.createSession name launch], false⟩
      | none => attach m (w.createSession name) [.createSession name launch]

/-- The directory-local pre-check of `createAndAttachTool` (inlined in
the Go source): with a known current directory, one session of the tool
already bound there resolves to an attach request, several to a picker
restricted to them; `none` means fall through to creation. -/
def createInDirStep (m : Model) (w : World) (tool : String) : Option StepResult :=
  let cwd := w.currentDir
  if cwd ≠ "" then
    match toolSessionsInDir m tool cwd with
    | [] => none
    | [one] => some (requestAttachSession m w one)
    | inDir =>
      let m := { m with mode := UiMode.modePickAttach, pickerTool := tool,
                        pickerTargets := buildSlots [] inDir.enum,
                        homeNotice := "session already running in this directory" }
      some ⟨m, w, [], false⟩
  else none

/-- `model.createAndAttachTool`: attach to (or pick among) sessions of the
tool already bound to the current directory, else create a fresh session
named `nextSessionName` and attach to it. -/
def createAndAttachTool (m : Model) (w : World) (tool : String) : StepResult :=
  match createInDirStep m w tool with
  | some r => r
  | none =>
    let command := m.commandForTool tool
    if command = "" then
      ⟨{ m with homeNotice := tool ++ " is not configured" }, w, [], false⟩
    else
      let name := nextSessionName m w tool
      let launch := fallbackCommand tool command
      match w.createErr name launch with
      | some e =>
        ⟨{ m with homeNotice := "failed to create " ++ tool ++ ": " ++ e }, w,
          [.createSession name launch], false⟩
      | none =>
        let w := w.createSession name
        let m := if m.sessions.contains name then m else { m with sessions := m.sessions ++ [name] }
        let r := startAndAttachSession m w name command
        ⟨r.model, r.world, .createSession name launch :: r.effects, r.quit⟩

/-- `model.preparePicker`: populate the letter-slot map from the running
sessions of the tool, truncated to the 26 letters, with a notice when
truncation happened.  (The loop writes the distinct keys `pickerKey 0 ..
pickerKey (limit-1)`, so the Go map equals this association list in
insertion order.) -/
def preparePicker (m : Model) (w : World) (tool : String) (pickMode : UiMode) : Model :=
  let targets := runningToolSessions m w tool
  let maxKeys := 26
  let limit := if targets.length > maxKeys then maxKeys else targets.length
  let notice := if targets.length > maxKeys then "showing first 26 sessions" else ""
  { m with mode := pickMode, pickerTool := tool,
           pickerTargets := buildSlots [] ((List.range limit).zip targets),
           homeNotice := notice }

/-- The directory-local pre-check of `handleToolAttach` (inlined in the
Go source): one bound session in the current directory is attached
directly, several open a picker restricted to them. -/
def attachInDirStep (m : Model) (w : World) (tool : String) : Option StepResult :=
  let cwd := w.currentDir
  if cwd ≠ "" then
    match toolSessionsInDir m tool cwd with
    | [] => none
    | [one] => some (startAndAttachSession m w one "")
    | inDir =>
      let m := { m with mode := UiMode.modePickAttach, pickerTool := tool,
                        pickerTargets := buildSlots [] inDir.enum,
                        homeNotice := "multiple sessions in this directory" }
      some ⟨m, w, [], false⟩
  else none

/-- `model.handleToolAttach`: directory-local sessions take precedence;
otherwise dispatch on the number of running sessions of the tool. -/
def handleToolAttach (m : Model) (w : World) (tool : String) : StepResult :=
  match attachInDirStep m w tool with
  | some r => r
  | none =>
    match runningToolSessions m w tool with
    | [] => createAndAttachTool m w tool
    | [one] => startAndAttachSession m w one ""
    | _ => ⟨preparePicker m w tool .modePickAttach, w, [], false⟩

/-- `model.handleToolKill`. -/
def handleToolKill (m : Model) (w : World) (tool : String) : StepResult :=
  match runningToolSessions m w tool with
  | [] => ⟨{ m with homeNotice := "no " ++ tool ++ " sessions running", mode := .modeHome }, w, [], false⟩
  | [one] =>
    match w.killErr one with
    | some e =>
      let m := { m with homeNotice := "failed to stop " ++ one ++ ": " ++ e }
      ⟨{ refreshBindings m w with mode := .modeHome }, w, [.killSession one], false⟩
    | none =>
      let w := w.killSession one
      let m := { m with homeNotice := "stopped " ++ one }
      ⟨{ refreshBindings m w with mode := .modeHome }, w, [.killSession one], false⟩
  | _ => ⟨preparePicker m w tool .modePickKill, w, [], false⟩

/-- The candidate list of `model.enterTaskKillPicker`: the user tasks of
every running session, concatenated in sorted session order (sessions
whose task enumeration fails are skipped). -/
def taskKillCandidates (m : Model) (w : World) : List TaskKillTarget :=
  (runningSessionNames m w).foldl (fun acc name =>
    match w.tasksOf name with
    | none => acc
    | some tasks => acc ++ tasks.map (fun t =>
        ({ session := name, pid := t.pid, command := t.command } : TaskKillTarget))) []

/-- `model.enterTaskKillPicker`. -/
def enterTaskKillPicker (m : Model) (w : World) : StepResult :=
  let targets := taskKillCandidates m w
  if targets.length = 0 then
    ⟨{ m with mode := .modeHome, homeNotice := "no tasks to kill" }, w, [], false⟩
  else
    let maxKeys := 26
    let limit := if targets.length > maxKeys then maxKeys else targets.length
    let notice := if targets.length > maxKeys then "showing first 26 tasks" else ""
    ⟨{ m with mode := .modePickKillTask,
              taskKillTargets := buildSlots [] ((List.range limit).zip targets),
              homeNotice := notice }, w, [], false⟩

/-- `model.refreshDirSuggestions`. -/
def refreshDirSuggestions (m : Model) (w : World) : Model :=
  match w.lookupDirs m.dirQuery with
  | none => { m with dirSuggestions := [] }
  | some suggestions =>
    let suggestions := if suggestions.length > 9 then suggestions.take 9 else suggestions
    let m := { m with dirSuggestions := suggestions }
    if m.dirSuggestions.length = 0 then { m with dirSelection := 0 }
    else if m.dirSelection ≥ (m.dirSuggestions.length : Int) then
      { m with dirSelection := (m.dirSuggestions.length : Int) - 1 }
    else m

/-- `model.applyDirChange`. -/
def applyDirChange (m : Model) (w : World) (target : String) : StepResult :=
  match w.chdirErr target with
  | some e => ⟨{ m with homeNotice := "cd failed: " ++ e }, w, [.changeDir target], false⟩
  | none =>
    ⟨{ m with mode := .modeHome, homeNotice := "", dirQuery := "", dirSuggestions := [],
              dirSelection := 0 },
      w.changeDir target, [.changeDir target], false⟩

/-- A key event as `updateHome` sees it (`tea.KeyMsg`). -/
inductive Key
  | ctrlC | esc | enter | up | down | backspace | del | runes (s : String)
deriving DecidableEq, Repr

/-- `msg.String()` of the Bubble Tea key message. -/
def keyString : Key → String
  | .ctrlC => "ctrl+c"
  | .esc => "esc"
  | .enter => "enter"
  | .up => "up"
  | .down => "down"
  | .backspace => "backspace"
  | .del => "delete"
  | .runes s => s

/-- The `modeDirJump` arm of `updateHome` (dispatching on the message
type).  Its `KeyEsc` arm is dead code in the Go source: the global `esc`
handler of `updateHome` returns first. -/
def updateDirJump (m : Model) (w : World) (msg : Key) : StepResult :=
  match msg with
  | .esc =>
    ⟨{ m with mode := .modeHome, dirQuery := "", dirSuggestions := [], dirSelection := 0,
              homeNotice := "" }, w, [], false⟩
  | .enter =>
    let m := if m.dirSuggestions.length = 0 then refreshDirSuggestions m w else m
    if m.dirSuggestions.length = 0 then
      ⟨{ m with homeNotice := "no matching directories" }, w, [], false⟩
    else
      let m := if m.dirSelection < 0 ∨ m.dirSelection ≥ (m.dirSuggestions.length : Int) then
        { m with dirSelection := 0 } else m
      applyDirChange m w (m.dirSuggestions.getD m.dirSelection.toNat "")
  | .up =>
    let m := if m.dirSuggestions.length > 0 then
        (if m.dirSelection ≤ 0 then { m with dirSelection := (m.dirSuggestions.length : Int) - 1 }
         else { m with dirSelection := m.dirSelection - 1 })
      else m
    ⟨m, w, [], false⟩
  | .down =>
    let m := if m.dirSuggestions.length > 0 then
        { m with dirSelection := (m.dirSelection + 1) % (m.dirSuggestions.length : Int) }
      else m
    ⟨m, w, [], false⟩
  | .backspace | .del =>
    -- ASCII queries: dropping the last byte drops the last character
    let m := if m.dirQuery.length > 0 then
        { m with dirQuery := String.mk m.dirQuery.toList.dropLast } else m
    ⟨refreshDirSuggestions { m with dirSelection := 0 } w, w, [], false⟩
  | .runes s =>
    ⟨refreshDirSuggestions { m with dirQuery := m.dirQuery ++ s, dirSelection := 0 } w, w, [], false⟩
  | .ctrlC => ⟨m, w, [], false⟩

/-- The `modeNewTool` arm of `updateHome`. -/
def updateNewTool (m : Model) (w : World) (key : String) : StepResult :=
  let cwd := w.currentDir
  if key = "c" then
    if toolAlreadyRunningInDir m "claude" cwd then
      ⟨{ m with homeNotice := "claude already running in this directory" }, w, [], false⟩
    else createAndAttachTool m w "claude"
  else if key = "x" then
    if toolAlreadyRunningInDir m "codex" cwd then
      ⟨{ m with homeNotice := "codex already running in this directory" }, w, [], false⟩
    else createAndAttachTool m w "codex"
  else if key = "u" then
    if toolAlreadyRunningInDir m "cursor" cwd then
      ⟨{ m with homeNotice := "cursor already running in this directory" }, w, [], false⟩
    else createAndAttachTool m w "cursor"
  else
    ⟨{ m with homeNotice := "Unknown new target \"" ++ key ++ "\". Use c, x, or u." }, w, [], false⟩

/-- The `modeKillTool` arm of `updateHome`. -/
def updateKillTool (m : Model) (w : World) (key : String) : StepResult :=
  let claudeTargets := runningToolSessions m w "claude"
  let codexTargets := runningToolSessions m w "codex"
  let cursorTargets := runningToolSessions m w "cursor"
  if claudeTargets.length = 0 ∧ codexTargets.length = 0 ∧ cursorTargets.length = 0 then
    ⟨{ m with mode := .modeHome, homeNotice := "no kill targets are running" }, w, [], false⟩
  else if key = "c" then
    if claudeTargets.length = 0 then
      ⟨{ m with homeNotice := "claude is not running" }, w, [], false⟩
    else if claudeTargets.length > 1 then
      ⟨preparePicker m w "claude" .modePickKill, w, [], false⟩
    else handleToolKill m w "claude"
  else if key = "x" then
    if codexTargets.length = 0 then
      ⟨{ m with homeNotice := "codex is not running" }, w, [], false⟩
    else if codexTargets.length > 1 then
      ⟨preparePicker m w "codex" .modePickKill, w, [], false⟩
    else handleToolKill m w "codex"
  else if key = "u" then
    if cursorTargets.length = 0 then
      ⟨{ m with homeNotice := "cursor is not running" }, w, [], false⟩
    else if cursorTargets.length > 1 then
      ⟨preparePicker m w "cursor" .modePickKill, w, [], false⟩
    else handleToolKill m w "cursor"
  else if key = "t" then enterTaskKillPicker m w
  else ⟨{ m with homeNotice := "Unknown kill target \"" ++ key ++ "\"." }, w, [], false⟩

/-- The `modePickAttach` arm of `updateHome`. -/
def updatePickAttach (m : Model) (w : World) (key : String) : StepResult :=
  match mapGet m.pickerTargets key with
  | none => ⟨{ m with homeNotice := "Unknown target \"" ++ key ++ "\"." }, w, [], false⟩
  | some target => startAndAttachSession m w target ""

/-- The `modePickKill` arm of `updateHome`. -/
def updatePickKill (m : Model) (w : World) (key : String) : StepResult :=
  match mapGet m.pickerTargets key with
  | none => ⟨{ m with homeNotice := "Unknown target \"" ++ key ++ "\"." }, w, [], false⟩
  | some target =>
    match w.killErr target with
    | some e =>
      let m := { m with homeNotice := "failed to stop " ++ target ++ ": " ++ e, mode := .modeHome }
      ⟨refreshBindings m w, w, [.killSession target], false⟩
    | none =>
      let w := w.killSession target
      let m := { m with homeNotice := "stopped " ++ target, mode := .modeHome }
      ⟨refreshBindings m w, w, [.killSession target], false⟩

/-- The `modePickKillTask` arm of `updateHome` (the task-count cache
refresh touches only fields not modelled here). -/
def updatePickKillTask (m : Model) (w : World) (key : String) : StepResult :=
  match mapGet m.taskKillTargets key with
  | none => ⟨{ m with homeNotice := "Unknown task target \"" ++ key ++ "\"." }, w, [], false⟩
  | some target =>
    let m := match w.killPIDErr target.pid with
      | some e => { m with homeNotice := "failed to kill pid " ++ toString target.pid ++ ": " ++ e }
      | none => { m with homeNotice := "killed pid " ++ toString target.pid }
    ⟨{ m with mode := .modeHome }, w, [.killTaskPID target.pid], false⟩

/-- The home-mode key dispatch at the bottom of `updateHome` (only
reachable when the mode is home: every other mode arm returns). -/
def updateHomeKeys (m : Model) (w : World) (key : String) : StepResult :=
  if key = "c" then handleToolAttach m w "claude"
  else if key = "x" then handleToolAttach m w "codex"
  else if key = "u" then handleToolAttach m w "cursor"
  else if key = "z" then
    if !m.hasFasder then
      ⟨{ m with homeNotice := "fasder not found; install fasder to use z" }, w, [], false⟩
    else
      ⟨refreshDirSuggestions
        { m with mode := .modeDirJump, homeNotice := "", dirQuery := "", dirSuggestions := [],
                 dirSelection := 0 } w, w, [], false⟩
  else if key = "n" then ⟨{ m with mode := .modeNewTool, homeNotice := "" }, w, [], false⟩
  else if key = "k" then
    if !hasAnyRunningSessions m w then
      ⟨{ m with homeNotice := "no running sessions to kill" }, w, [], false⟩
    else ⟨{ m with mode := .modeKillTool, homeNotice := "" }, w, [], false⟩
  else
    match m.customSessions.find? (fun s => s.key = key) with
    | some sc => startAndAttachSession m w sc.name sc.command
    | none =>
      if key = "t" ∧ m.mode = .modeHome then
        ⟨{ m with showTaskDetails := !m.showTaskDetails }, w, [], false⟩
      else ⟨m, w, [], false⟩

/-- `model.updateHome` from `cmd/pb/main.go`: refresh the bindings, run
the global `ctrl+c` / `d` / `esc` handlers, then dispatch on the mode. -/
def updateHome (m : Model) (w : World) (msg : Key) : StepResult :=
  let key := keyString msg
  let m := refreshBindings m w
  if key = "ctrl+c" then ⟨m, w, [.killServer], true⟩
  else if key = "d" ∧ m.mode = .modeHome then ⟨m, w, [], true⟩
  else if key = "d" ∧ (m.mode = .modeNewTool ∨ m.mode = .modeKillTool) then
    ⟨{ m with mode := .modeHome, homeNotice := "" }, w, [], false⟩
  else if key = "esc" ∧ m.mode ≠ .modeHome then
    ⟨{ m with mode := .modeHome, homeNotice := "" }, w, [], false⟩
  else
    match m.mode with
    | .modeDirJump => updateDirJump m w msg
    | .modeNewTool => updateNewTool m w key
    | .modeKillTool => updateKillTool m w key
    | .modePickAttach => updatePickAttach m w key
    | .modePickKill => updatePickKill m w key
    | .modePickKillTask => updatePickKillTask m w key
    | .modeHome => updateHomeKeys m w key

/-- Modelled from the spec: `yoloCommandForTool` is not present in the
source snapshot (only its test `TestYoloCommandForTool` is); per §6 of the
spec, for Claude replace `--permission-mode acceptEdits` with
`--dangerously-skip-permissions` (append it when absent), for Codex insert
the global `--yolo` flag immediately after the binary when the command
begins with it, and leave Cursor (and unknown tools) unchanged. -/
def yoloCommandForTool (tool command : String) : String :=
  if tool = "claude" then
    if goContains command "--permission-mode acceptEdits" then
      replaceFirst command "--permission-mode acceptEdits" "--dangerously-skip-permissions"
    else command ++ " --dangerously-skip-permissions"
  else if tool = "codex" then
    if command = "codex" then "codex --yolo"
    else if goHasPre command "codex " then
      "codex --yolo " ++ String.mk (command.toList.drop 6)
    else command
  else command

/-! ## Spec-side readings (for comparison with the code) -/

/-- The claim's reading of `next_name`: the bare tool name when no
session with that name exists, else `tool-(N+1)` where N is the maximum
numeric suffix currently in use among the tool's session names. -/
def claimNextName (names : List String) (tool : String) : String :=
  if !names.contains tool then tool
  else tool ++ "-" ++ toString ((names.filterMap (goScanSuffix tool)).foldl max 0 + 1)

/-- The amended reading of `next_name`: as `claimNextName`, but N is the
larger of 1 and the maximum scanned numeric suffix, so the name after the
bare `tool` is always at least `tool-2`. -/
def specNextNameAmended (names : List String) (tool : String) : String :=
  if !names.contains tool then tool
  else tool ++ "-" ++ toString ((names.filterMap (goScanSuffix tool)).foldl max 1 + 1)

/-! ## Concrete states used by the counterexamples and witnesses -/

/-- A model carrying the default configuration and nothing else (the
state `initialModel` builds before any session runs, with fasder absent). -/
def baseModel : Model where
  claude := ⟨"claude --continue --permission-mode acceptEdits", "c", true⟩
  codex := ⟨"codex resume --last", "x", true⟩
  cursor := ⟨"agent resume", "u", true⟩
  customSessions := []
  sessions := []
  bindings := []
  mode := .modeHome
  pickerTool := ""
  pickerTargets := []
  taskKillTargets := []
  homeNotice := ""
  dirQuery := ""
  dirSuggestions := []
  dirSelection := 0
  shouldAttach := false
  sessionToAttach := ""
  hasFasder := false
  showTaskDetails := false

/-- A world with no live sessions and no failing operations. -/
def quietWorld : World where
  live := fun _ => false
  cwdOf := fun _ => ""
  currentDir := ""
  createErr := fun _ _ => none
  killErr := fun _ => none
  killPIDErr := fun _ => none
  chdirErr := fun _ => none
  lookupDirs := fun _ => none
  tasksOf := fun _ => none
  now := 0

/-- C1 counterexample state: only claude is configured, and the UI knows
a stale session `ghost` that is neither configured nor live. -/
def c1Model : Model :=
  { baseModel with
    codex := ⟨"codex resume --last", "x", false⟩
    cursor := ⟨"agent resume", "u", false⟩
    sessions := ["claude", "ghost"] }

/-- C2 state: two running codex sessions. -/
def c2Model : Model := { baseModel with sessions := ["codex", "codex-2"] }

/-- C2 counterexample world: `codex` is bound to the current directory
`/repo`, `codex-2` to a different one. -/
def c2World : World :=
  { quietWorld with
    live := fun n => n = "codex" ∨ n = "codex-2"
    cwdOf := fun n => if n = "codex" then "/repo" else "/other"
    currentDir := "/repo" }

/-- C2 witness world: both codex sessions run from a directory other than
the current one (spec scenario 3). -/
def c2WorldAway : World := { c2World with cwdOf := fun _ => "/elsewhere" }

/-- C4 counterexample state: running sessions `codex` and `codex-0`, so
the maximum numeric suffix in use is 0. -/
def c4Model : Model := { baseModel with sessions := ["codex", "codex-0"] }

/-- C4 counterexample world. -/
def c4World : World := { quietWorld with live := fun n => n = "codex" ∨ n = "codex-0" }

/-- C5 counterexample state: dir-jump mode with a non-empty query and a
non-zero selection. -/
def c5Model : Model :=
  { baseModel with
    mode := .modeDirJump
    dirQuery := "abc"
    dirSelection := 1
    dirSuggestions := ["/tmp/one", "/tmp/two"] }

/-- C5 witness state: an attach picker. -/
def c5PickerModel : Model :=
  { baseModel with
    mode := .modePickAttach
    pickerTool := "claude"
    pickerTargets := [("a", "claude-1")]
    homeNotice := "pick one key to attach" }

/-- C6/C2 witness: twenty-seven running codex sessions. -/
def c6Sessions : List String := (List.range 27).map (fun i => "codex-" ++ toString i)

/-- C6 witness model. -/
def c6Model : Model := { baseModel with sessions := c6Sessions }

/-- C6 witness world: every session is live. -/
def c6World : World := { quietWorld with live := fun _ => true }

/-- C6 witness state for the task-kill picker: one running session. -/
def c6TaskModel : Model := { baseModel with sessions := ["claude"] }

/-- C6 witness world for the task-kill picker: the session reports 27
user tasks. -/
def c6TaskWorld : World :=
  { quietWorld with
    live := fun n => n = "claude"
    tasksOf := fun n =>
      if n = "claude" then some ((List.range 27).map (fun i => ⟨(i : Int) + 100, 1, "S", "sleep 300"⟩))
      else none }

/-- C7 witness input: an agent root with one infrastructure leaf and one
user leaf. -/
def c7Tasks : List Task :=
  [⟨111, 100, "S+", "claude --continue"⟩, ⟨112, 111, "S+", "gopls"⟩, ⟨113, 111, "S+", "sleep 300"⟩]

/-- C7 counterexample input: a single task whose command is a bare shell
wrapper. -/
def c7BashTask : Task := ⟨2, 1, "S", "bash"⟩

/-! ## General lemmas -/

theorem mem_insertSorted {a x : String} : ∀ {l : List String}, a ∈ insertSorted x l ↔ a = x ∨ a ∈ l
  | [] => by simp [insertSorted]
  | y :: ys => by
    unfold insertSorted
    by_cases h : strLe x y = true
    · simp [h]
    · rw [if_neg h]
      simp only [List.mem_cons, mem_insertSorted (l := ys)]
      tauto

theorem mem_sortStrings {a : String} : ∀ {l : List String}, a ∈ sortStrings l ↔ a ∈ l
  | [] => by simp [sortStrings]
  | y :: ys => by
    show a ∈ insertSorted y (sortStrings ys) ↔ _
    rw [mem_insertSorted, mem_sortStrings (l := ys)]
    simp

theorem mapSet_fresh {α : Type} {l : List (String × α)} {k : String} {v : α}
    (h : ∀ p ∈ l, p.1 ≠ k) : mapSet l k v = l ++ [(k, v)] := by
  have hany : l.any (fun p => p.1 = k) = false := by
    simp only [List.any_eq_false, decide_eq_true_eq]
    exact h
  simp [mapSet, hany]

theorem mem_mapSet {α : Type} {l : List (String × α)} {k : String} {v : α} {q : String × α}
    (h : q ∈ mapSet l k v) : q = (k, v) ∨ (q ∈ l ∧ q.1 ≠ k) := by
  unfold mapSet at h
  by_cases hany : l.any (fun p => p.1 = k) = true
  · rw [if_pos hany] at h
    obtain ⟨p, hp, hq⟩ := List.mem_map.1 h
    by_cases hk : p.1 = k
    · left; rw [if_pos hk] at hq; exact hq.symm
    · right; rw [if_neg hk] at hq; exact ⟨hq ▸ hp, hq ▸ hk⟩
  · rw [if_neg hany] at h
    simp only [List.any_eq_true, decide_eq_true_eq, not_exists, not_and] at hany
    rcases List.mem_append.1 h with h' | h'
    · exact Or.inr ⟨h', fun hk => hany q h' hk⟩
    · left; simpa using h'

theorem mapGet_map_upd {α : Type} {k k' : String} {v : α} :
    ∀ l : List (String × α),
      mapGet (l.map (fun p => if p.1 = k then (k, v) else p)) k'
        = if l.any (fun p => p.1 = k) ∧ k = k' then some v
          else mapGet (l.filter (fun p => !p.1 = k)) k'
  | [] => by simp [mapGet]
  | a :: l => by
    by_cases ha : a.1 = k
    · by_cases hk : k = k'
      · simp [mapGet, ha, hk, mapGet_map_upd l]
      · have h1 : ¬ (k = k') := hk
        simp only [List.map_cons, if_pos ha, mapGet, if_neg h1, List.any_cons]
        rw [mapGet_map_upd l]
        have : (a :: l).filter (fun p => !p.1 = k) = l.filter (fun p => !p.1 = k) := by
          simp [List.filter, ha]
        rw [show ((a :: l).filter (fun p => !decide (p.1 = k))) = (l.filter (fun p => !decide (p.1 = k))) by simp [List.filter, ha]]
        by_cases hany : l.any (fun p => p.1 = k) = true <;> simp [hany, ha, hk]
    · simp only [List.map_cons, if_neg ha, mapGet]
      by_cases hk' : a.1 = k'
      · rw [show ((a :: l).filter (fun p => !decide (p.1 = k))) = a :: (l.filter (fun p => !decide (p.1 = k))) by simp [List.filter, ha]]
        by_cases hand : (a :: l).any (fun p => p.1 = k) ∧ k = k'
        · exact absurd (hand.2 ▸ hk') (hand.2 ▸ ha)
        · simp only [if_neg hand, mapGet, if_pos hk']
      · rw [if_neg hk']
        rw [mapGet_map_upd l]
        rw [show ((a :: l).filter (fun p => !decide (p.1 = k))) = a :: (l.filter (fun p => !decide (p.1 = k))) by simp [List.filter, ha]]
        by_cases hany : l.any (fun p => p.1 = k) = true <;>
          simp [hany, ha, hk', mapGet, List.any_cons]

theorem mapGet_append {α : Type} {k : String} :
    ∀ (l₁ l₂ : List (String × α)),
      mapGet (l₁ ++ l₂) k = match mapGet l₁ k with
        | some v => some v
        | none => mapGet l₂ k
  | [], l₂ => by simp [mapGet]
  | a :: l₁, l₂ => by
    by_cases ha : a.1 = k
    · simp [mapGet, ha]
    · simp only [List.cons_append, mapGet, if_neg ha]
      exact mapGet_append l₁ l₂

theorem mapGet_mapSet_self {α : Type} (l : List (String × α)) (k : String) (v : α) :
    mapGet (mapSet l k v) k = some v := by
  unfold mapSet
  by_cases hany : l.any (fun p => p.1 = k) = true
  · rw [if_pos hany, mapGet_map_upd l, if_pos ⟨hany, rfl⟩]
  · rw [if_neg hany, mapGet_append l]
    have : mapGet l k = none := by
      simp only [List.any_eq_true, decide_eq_true_eq, not_exists, not_and] at hany
      clear * - hany
      induction l with
      | nil => rfl
      | cons a l ih =>
        have ha : ¬ a.1 = k := fun h => hany a (by simp) h
        simp only [mapGet, if_neg ha]
        exact ih fun p hp h => hany p (by simp [hp]) h
    simp [this, mapGet]

theorem mapGet_mapSet_ne {α : Type} (l : List (String × α)) {k k' : String} (v : α)
    (h : k' ≠ k) : mapGet (mapSet l k v) k' = mapGet l k' := by
  unfold mapSet
  by_cases hany : l.any (fun p => p.1 = k) = true
  · rw [if_pos hany, mapGet_map_upd l, if_neg (fun hand => h hand.2.symm)]
    clear * - h
    induction l with
    | nil => rfl
    | cons a l ih =>
      by_cases ha : a.1 = k
      · have ha' : ¬ a.1 = k' := fun hk => h (hk.symm.trans ha)
        rw [show ((a :: l).filter (fun p => !decide (p.1 = k))) = (l.filter (fun p => !decide (p.1 = k))) by simp [List.filter, ha]]
        simp only [mapGet, if_neg ha']
        exact ih
      · rw [show ((a :: l).filter (fun p => !decide (p.1 = k))) = a :: (l.filter (fun p => !decide (p.1 = k))) by simp [List.filter, ha]]
        by_cases hk' : a.1 = k'
        · simp [mapGet, hk']
        · simp only [mapGet, if_neg hk']
          exact ih
  · rw [if_neg hany, mapGet_append l]
    cases hv : mapGet l k' with
    | some v' => simp
    | none => simp [mapGet, Ne.symm h]

theorem mapGet_filter_key {α : Type} (q : String → Bool) (k : String) :
    ∀ (l : List (String × α)),
      mapGet (l.filter (fun p => q p.1)) k = if q k then mapGet l k else none
  | [] => by simp [mapGet]
  | a :: l => by
    by_cases hq : q a.1 = true
    · rw [List.filter_cons_of_pos (by simpa using hq)]
      by_cases ha : a.1 = k
      · subst ha
        simp [mapGet, hq]
      · simp only [mapGet, if_neg ha]
        exact mapGet_filter_key q k l
    · rw [List.filter_cons_of_neg (by simpa using hq)]
      rw [mapGet_filter_key q k l]
      by_cases ha : a.1 = k
      · subst ha
        have : q a.1 = false := by simpa using hq
        simp [this, mapGet]
      · simp [mapGet, if_neg ha]

theorem refresh_fold_lookup (w : World) (name : String) :
    ∀ (l : List String) (acc : List (String × CommandBinding)),
      mapGet (l.foldl (fun b n =>
        if w.live n then mapSet b n ⟨n, w.cwdOf n, true, w.now⟩ else b) acc) name
      = if name ∈ l ∧ w.live name = true
        then some ⟨name, w.cwdOf name, true, w.now⟩
        else mapGet acc name
  | [], acc => by simp
  | a :: l, acc => by
    rw [List.foldl_cons, refresh_fold_lookup w name l]
    by_cases hmem : name ∈ l ∧ w.live name = true
    · rw [if_pos hmem, if_pos ⟨by simp [hmem.1], hmem.2⟩]
    · rw [if_neg hmem]
      by_cases ha : a = name
      · subst ha
        by_cases hlive : w.live a = true
        · simp [hlive, mapGet_mapSet_self]
        · simp [hlive]
      · have hcond : ¬ (name ∈ a :: l ∧ w.live name = true) := by
          rintro ⟨hm, hl⟩
          rcases List.mem_cons.1 hm with rfl | hm'
          · exact ha rfl
          · exact hmem ⟨hm', hl⟩
        rw [if_neg hcond]
        by_cases hlive : w.live a = true
        · simp only [hlive, if_true]
          exact mapGet_mapSet_ne acc _ (Ne.symm ha)
        · simp [hlive]

theorem refreshBindings_sessions (m : Model) (w : World) :
    (refreshBindings m w).sessions = m.sessions := rfl

theorem refreshBindings_mode (m : Model) (w : World) :
    (refreshBindings m w).mode = m.mode := rfl

theorem refreshBindings_lookup (m : Model) (w : World) (name : String) :
    mapGet (refreshBindings m w).bindings name
      = if name ∈ m.sessions ∧ w.live name = true
        then some ⟨name, w.cwdOf name, true, w.now⟩ else none := by
  show mapGet (List.filter _ _) name = _
  rw [mapGet_filter_key (fun s => m.sessions.contains s && w.live s) name]
  rw [refresh_fold_lookup w name m.sessions m.bindings]
  by_cases hml : name ∈ m.sessions ∧ w.live name = true
  · rw [if_pos hml, if_pos (by simp [List.elem_iff, hml.1, hml.2]), if_pos hml]
  · rw [if_neg hml]
    by_cases hc : (m.sessions.contains name && w.live name) = true
    · rw [if_pos hc, if_neg hml]
      simp only [Bool.and_eq_true, List.elem_iff] at hc
      exact absurd hc hml
    · rw [if_neg hc, if_neg hml]

theorem refresh_fold_mem (w : World) :
    ∀ (l : List String) (acc : List (String × CommandBinding)) (q : String × CommandBinding),
      q ∈ l.foldl (fun b n =>
        if w.live n then mapSet b n ⟨n, w.cwdOf n, true, w.now⟩ else b) acc →
      (q.2 = ⟨q.1, w.cwdOf q.1, true, w.now⟩ ∧ w.live q.1 = true)
        ∨ (q ∈ acc ∧ (w.live q.1 = true → q.1 ∉ l))
  | [], _, q => fun h => Or.inr ⟨h, fun _ => List.not_mem_nil q.1⟩
  | a :: l, acc, q => fun h => by
    rw [List.foldl_cons] at h
    rcases refresh_fold_mem w l _ q h with h1 | ⟨hacc, hnot⟩
    · exact Or.inl h1
    · by_cases hlive : w.live a = true
      · rw [if_pos hlive] at hacc
        rcases mem_mapSet hacc with rfl | ⟨hq, hne⟩
        · exact Or.inl ⟨rfl, hlive⟩
        · refine Or.inr ⟨hq, fun hl hmem => ?_⟩
          rcases List.mem_cons.1 hmem with rfl | hm
          · exact hne rfl
          · exact hnot hl hm
      · rw [if_neg hlive] at hacc
        refine Or.inr ⟨hacc, fun hl hmem => ?_⟩
        rcases List.mem_cons.1 hmem with rfl | hm
        · exact hlive hl
        · exact hnot hl hm

theorem mem_refreshBindings {m : Model} {w : World} {q : String × CommandBinding}
    (h : q ∈ (refreshBindings m w).bindings) :
    q.2 = ⟨q.1, w.cwdOf q.1, true, w.now⟩ ∧ q.1 ∈ m.sessions ∧ w.live q.1 = true := by
  have hf := List.mem_filter.1 h
  have hpred : q.1 ∈ m.sessions ∧ w.live q.1 = true := by
    have := hf.2
    simp only [Bool.and_eq_true] at this
    exact ⟨List.elem_iff.1 this.1, this.2⟩
  rcases refresh_fold_mem w m.sessions m.bindings q hf.1 with ⟨hq2, hlive⟩ | ⟨_, hnot⟩
  · exact ⟨hq2, hpred⟩
  · exact absurd hpred.1 (hnot hpred.2)

theorem live_of_mem_toolSessionsInDir {m : Model} {w : World} {tool cwd name : String}
    (h : name ∈ toolSessionsInDir (refreshBindings m w) tool cwd) : w.live name = true := by
  unfold toolSessionsInDir at h
  rw [mem_sortStrings] at h
  obtain ⟨p, hp, rfl⟩ := List.mem_map.1 h
  exact (mem_refreshBindings (List.mem_filter.1 hp).1).2.2

theorem live_of_mem_runningToolSessions {m : Model} {w : World} {tool name : String}
    (h : name ∈ runningToolSessions m w tool) : w.live name = true := by
  unfold runningToolSessions at h
  rw [mem_sortStrings] at h
  have := (List.mem_filter.1 h).2
  simp only [Bool.and_eq_true] at this
  exact this.2

theorem startAndAttach_live {m : Model} {w : World} {name c : String}
    (h : w.live name = true) :
    (startAndAttachSession m w name c).quit = true ∧
    (startAndAttachSession m w name c).model.shouldAttach = true ∧
    (startAndAttachSession m w name c).model.sessionToAttach = name ∧
    (startAndAttachSession m w name c).model.mode = UiMode.modeHome ∧
    (startAndAttachSession m w name c).model.homeNotice = "" ∧
    (startAndAttachSession m w name c).effects = [] ∧
    (startAndAttachSession m w name c).world = w := by
  unfold startAndAttachSession
  simp [h]

theorem pickerKey_inj : ∀ i < 26, ∀ j < 26, pickerKey i = pickerKey j → i = j := by decide

theorem buildSlots_append {α : Type} :
    ∀ (pairs : List (Nat × α)) (acc : List (String × α)),
      (∀ p ∈ pairs, ∀ q ∈ acc, q.1 ≠ pickerKey p.1) →
      pairs.Pairwise (fun p q => pickerKey p.1 ≠ pickerKey q.1) →
      buildSlots acc pairs = acc ++ pairs.map (fun p => (pickerKey p.1, p.2))
  | [], acc => by simp [buildSlots]
  | (i, v) :: rest, acc => fun hfresh hpw => by
    rw [buildSlots]
    rw [mapSet_fresh (fun q hq => hfresh (i, v) (by simp) q hq)]
    rcases List.pairwise_cons.1 hpw with ⟨hhead, htail⟩
    rw [buildSlots_append rest (acc ++ [(pickerKey i, v)]) ?_ htail]
    · simp
    · intro p hp q hq
      rcases List.mem_append.1 hq with hq' | hq'
      · exact hfresh p (List.mem_cons_of_mem _ hp) q hq'
      · have : q = (pickerKey i, v) := by simpa using hq'
        rw [this]
        exact hhead p hp

theorem pairwise_zip_left {α : Type} {R : Nat → Nat → Prop} :
    ∀ (l1 : List Nat) (l2 : List α), l1.Pairwise R → (l1.zip l2).Pairwise (fun p q => R p.1 q.1)
  | [], _, _ => by simp
  | _ :: _, [], _ => by simp
  | a :: l1, b :: l2, h => by
    rw [List.zip_cons_cons]
    rcases List.pairwise_cons.1 h with ⟨hhead, htail⟩
    refine List.Pairwise.cons ?_ (pairwise_zip_left l1 l2 htail)
    rintro ⟨x, y⟩ hxy
    exact hhead x (List.of_mem_zip hxy).1

theorem slots_zip_range {α : Type} (targets : List α) (limit : Nat) (h : limit ≤ 26) :
    buildSlots [] ((List.range limit).zip targets)
      = ((List.range limit).zip targets).map (fun p => (pickerKey p.1, p.2)) := by
  apply buildSlots_append
  · intro p _ q hq
    exact absurd hq (List.not_mem_nil q)
  · have hpw : (List.range limit).Pairwise (· < ·) := List.pairwise_lt_range limit
    refine List.Pairwise.imp_of_mem ?_ (pairwise_zip_left (List.range limit) targets hpw)
    rintro ⟨i, x⟩ ⟨j, y⟩ hp hq hij heq
    have hi : i < 26 := lt_of_lt_of_le (List.mem_range.1 (List.of_mem_zip hp).1) h
    have hj : j < 26 := lt_of_lt_of_le (List.mem_range.1 (List.of_mem_zip hq).1) h
    exact absurd (pickerKey_inj i hi j hj heq) (Nat.ne_of_lt hij)

theorem scanFold_eq (tool : String) :
    ∀ (names : List String) (acc : Int),
      names.foldl (fun acc name =>
        match goScanSuffix tool name with
        | some n => if n > acc then n else acc
        | none => acc) acc
      = (names.filterMap (goScanSuffix tool)).foldl max acc
  | [], _ => rfl
  | a :: names, acc => by
    rw [List.foldl_cons, List.filterMap_cons]
    cases h : goScanSuffix tool a with
    | none => exact scanFold_eq tool names acc
    | some n =>
      have hmax : (if n > acc then n else acc) = max acc n := by
        rcases le_or_lt n acc with hle | hlt
        · rw [if_neg (not_lt.2 hle), max_eq_left hle]
        · rw [if_pos hlt, max_eq_right hlt.le]
      show names.foldl _ (if n > acc then n else acc) = List.foldl max acc (n :: _)
      rw [hmax, List.foldl_cons]
      exact scanFold_eq tool names (max acc n)

theorem mem_dedup_fold :
    ∀ (l acc : List String) (name : String),
      name ∈ l.foldl (fun acc n => if acc.contains n then acc else acc ++ [n]) acc
        ↔ name ∈ acc ∨ name ∈ l
  | [], acc, name => by simp
  | a :: l, acc, name => by
    rw [List.foldl_cons, mem_dedup_fold l _ name]
    by_cases h : acc.contains a = true
    · rw [if_pos h]
      have ha : a ∈ acc := List.elem_iff.1 h
      constructor
      · rintro (h' | h')
        · exact Or.inl h'
        · exact Or.inr (List.mem_cons_of_mem a h')
      · rintro (h' | h')
        · exact Or.inl h'
        · rcases List.mem_cons.1 h' with rfl | hm
          · exact Or.inl ha
          · exact Or.inr hm
    · rw [if_neg h]
      simp only [List.mem_append, List.mem_singleton, List.mem_cons]
      tauto

theorem mem_initialSessions (configured running : List String) (name : String) :
    name ∈ initialSessions configured running ↔ name ∈ configured ∨ name ∈ running := by
  unfold initialSessions
  rw [mem_dedup_fold, mem_dedup_fold]
  simp

/-! ## Claim theorems -/

/-- C1 counterexample: with claude the only configured base session, no
live tmux session at all, and a stale known session `ghost`, the
reconciliation (`refreshBindings`) leaves the known-session set at
`{claude, ghost}` — not the claimed union `{claude}` — and the binding
set at `∅` — not `{claude}` either.  The claimed pruning of sessions that
are neither configured nor live does not happen. -/
theorem c1_reconciliation_counterexample :
    allSessionNames c1Model = ["claude"] ∧
    quietWorld.live "ghost" = false ∧ quietWorld.live "claude" = false ∧
    (refreshBindings c1Model quietWorld).sessions = ["claude", "ghost"] ∧
    (refreshBindings c1Model quietWorld).bindings = [] := by
  refine ⟨by decide, rfl, rfl, by decide, by decide⟩

/-- C1 (amended): the known-session set equals configured ∪ live only at
initialization; each reconciliation changes exactly the binding
snapshots — afterwards a binding exists for a name precisely when the
name is a known session that is live in the multiplexer — while the
known-session set itself is left untouched (stale names are not pruned,
newly live names are not added). -/
theorem c1_reconciliation_amended :
    (∀ (configured running : List String) (name : String),
        name ∈ initialSessions configured running ↔ name ∈ configured ∨ name ∈ running) ∧
    (∀ (m : Model) (w : World), (refreshBindings m w).sessions = m.sessions) ∧
    (∀ (m : Model) (w : World) (name : String),
        mapGet (refreshBindings m w).bindings name
          = if name ∈ m.sessions ∧ w.live name = true
            then some ⟨name, w.cwdOf name, true, w.now⟩ else none) :=
  ⟨mem_initialSessions, fun _ _ => rfl, refreshBindings_lookup⟩

/-- C3 counterexample: on the very first successful pane capture of a
fresh session (state seeded by `NewSession` with empty last capture and
zero last-activity time), `UpdateActivity` reports the session as ACTIVE
(true), not idle, and records the capture time as activity. -/
theorem c3_first_capture_counterexample :
    (updateActivity newActivityState true (some "agent output") 1000000).1 = true ∧
    (updateActivity newActivityState true (some "agent output") 1000000).2
      = { lastCapture := "agent output", lastActivity := 1000000 } := by decide

/-- C3 (amended): on the very first successful pane capture (any
non-empty snapshot, which necessarily differs from the empty initial
`lastCapture`), `UpdateActivity` seeds `lastCapture`, records the capture
time as the last activity, and returns active — the first snapshot IS
reported as activity. -/
theorem c3_first_capture_amended (current : String) (now : Int) (h : current ≠ "") :
    updateActivity newActivityState true (some current) now
      = (true, { lastCapture := current, lastActivity := now }) := by
  unfold updateActivity newActivityState
  simp [h]

/-- C3 witness: the amended theorem applied to a concrete first capture. -/
theorem c3_first_capture_witness :
    ("hello" : String) ≠ "" ∧
    updateActivity newActivityState true (some "hello") 5
      = (true, { lastCapture := "hello", lastActivity := 5 }) :=
  ⟨by decide, c3_first_capture_amended "hello" 5 (by decide)⟩

/-- C4 counterexample: with running sessions `codex` and `codex-0`, the
maximum numeric suffix currently in use is 0, so the claim predicts
`codex-1`; the code returns `codex-2`, because its suffix accumulator
starts at 1. -/
theorem c4_next_name_counterexample :
    nextSessionName c4Model c4World "codex" = "codex-2" ∧
    claimNextName (runningToolSessions c4Model c4World "codex") "codex" = "codex-1" ∧
    ("codex-2" : String) ≠ "codex-1" := by
  refine ⟨by decide, by decide, by decide⟩

/-- C4 (amended): `next_name(tool)` returns the bare name `tool` when no
running session of the tool has that exact name; otherwise it returns
`tool-(N+1)` where N is the LARGER OF 1 and the maximum numeric suffix
scanned from the running session names of the tool. -/
theorem c4_next_name_amended (m : Model) (w : World) (tool : String) :
    nextSessionName m w tool = specNextNameAmended (runningToolSessions m w tool) tool := by
  show (nextSessionName m w tool = specNextNameAmended (runningToolSessions m w tool) tool)
  rw [show nextSessionName m w tool
      = (if !(runningToolSessions m w tool).contains tool then tool
         else tool ++ "-" ++ toString ((runningToolSessions m w tool).foldl (fun (acc : Int) name =>
           match goScanSuffix tool name with
           | some n => if n > acc then n else acc
           | none => acc) (1 : Int) + 1)) from rfl]
  unfold specNextNameAmended
  cases h : (runningToolSessions m w tool).contains tool with
  | false => rfl
  | true =>
    exact congrArg (fun z => tool ++ "-" ++ toString (z + 1))
      (scanFold_eq tool (runningToolSessions m w tool) 1)

/-- C5 counterexample: delivering `esc` in dir-jump mode returns to home
but leaves the dir-jump query, selection and suggestion list in place —
the claimed clearing does not happen (the clearing branch in the
dir-jump arm is unreachable because the global esc handler returns
first). -/
theorem c5_esc_counterexample :
    c5Model.mode = UiMode.modeDirJump ∧
    (updateHome c5Model quietWorld Key.esc).model.mode = UiMode.modeHome ∧
    (updateHome c5Model quietWorld Key.esc).model.dirQuery = "abc" ∧
    (updateHome c5Model quietWorld Key.esc).model.dirSelection = 1 ∧
    (updateHome c5Model quietWorld Key.esc).model.dirSuggestions = ["/tmp/one", "/tmp/two"] ∧
    (updateHome c5Model quietWorld Key.esc).effects = [] := by
  refine ⟨rfl, by decide, by decide, by decide, by decide, by decide⟩

/-- C5 (amended): from every non-home mode, delivering `esc` returns the
UI to home with no multiplexer command issued and no quit; it clears the
home notice but does NOT clear the dir-jump query or selection (those are
reset only when dir-jump mode is next entered). -/
theorem c5_esc_amended (m : Model) (w : World) (h : m.mode ≠ UiMode.modeHome) :
    (updateHome m w Key.esc).model = { refreshBindings m w with mode := UiMode.modeHome, homeNotice := "" } ∧
    (updateHome m w Key.esc).model.dirQuery = m.dirQuery ∧
    (updateHome m w Key.esc).model.dirSelection = m.dirSelection ∧
    (updateHome m w Key.esc).effects = [] ∧
    (updateHome m w Key.esc).quit = false ∧
    (updateHome m w Key.esc).world = w := by
  unfold updateHome
  simp [keyString, h, refreshBindings]

/-- C5 witness: the amended theorem applied to a concrete attach-picker
state. -/
theorem c5_esc_amended_witness :
    c5PickerModel.mode ≠ UiMode.modeHome ∧
    (updateHome c5PickerModel quietWorld Key.esc).effects = [] ∧
    (updateHome c5PickerModel quietWorld Key.esc).quit = false ∧
    (updateHome c5PickerModel quietWorld Key.esc).model.mode = UiMode.modeHome := by
  have h := c5_esc_amended c5PickerModel quietWorld (by decide)
  exact ⟨by decide, h.2.2.2.1, h.2.2.2.2.1, by rw [h.1]⟩

/-- C7 counterexample: a raw task list whose only (leaf) task is the
shell wrapper `bash` is returned unchanged by the user-task filter — the
noise command is NOT dropped, because when every leaf is noise the filter
falls back to the unfiltered leaf list. -/
theorem c7_filter_counterexample :
    filterUserTasks [c7BashTask] = [c7BashTask] ∧
    isInfrastructureCommand "bash" = true := by
  refine ⟨by decide, by decide⟩

/-- C7 (amended): whenever at least one leaf task is not a noise command,
the user-task filter drops every noise task (agent runtimes claude /
codex / agent, shell wrappers sh / bash / zsh / fish, and gopls); only
when every leaf task is noise is the unfiltered leaf list returned as a
fallback. -/
theorem c7_filter_amended (tasks : List Task)
    (h : ∃ t ∈ leafTasks tasks, isInfrastructureCommand t.command = false) :
    ∀ t ∈ filterUserTasks tasks, isInfrastructureCommand t.command = false := by
  obtain ⟨t0, ht0, hni⟩ := h
  intro t ht
  simp only [filterUserTasks] at ht
  by_cases h0 : tasks.length = 0
  · rw [if_pos h0] at ht
    exact absurd ht (List.not_mem_nil t)
  · rw [if_neg h0] at ht
    have hmem : t0 ∈ (leafTasks tasks).filter (fun t => !isInfrastructureCommand t.command) :=
      List.mem_filter.2 ⟨ht0, by simp [hni]⟩
    rw [if_pos (List.length_pos_of_mem hmem)] at ht
    have := (List.mem_filter.1 ht).2
    simpa using this

/-- C7 witness: the amended theorem applied to an agent tree with a gopls
leaf and a user leaf; the filtered output contains no noise command. -/
theorem c7_filter_amended_witness :
    (∃ t ∈ leafTasks c7Tasks, isInfrastructureCommand t.command = false) ∧
    ∀ t ∈ filterUserTasks c7Tasks, isInfrastructureCommand t.command = false :=
  ⟨by decide, c7_filter_amended c7Tasks (by decide)⟩

/-- C8: the fallback rewrite maps the codex resume command to
`codex resume --last || codex` and the claude resume command to
`... || claude --permission-mode acceptEdits`, and leaves every command
that is not one of the known resume forms unchanged. -/
theorem c8_fallback_rewrite :
    fallbackCommand "codex" "codex resume --last" = "codex resume --last || codex" ∧
    fallbackCommand "claude" "claude --continue --permission-mode acceptEdits"
      = "claude --continue --permission-mode acceptEdits || claude --permission-mode acceptEdits" ∧
    ∀ (tool command : String),
      command ≠ "claude --continue --permission-mode acceptEdits" →
      command ≠ "codex resume --last" →
      command ≠ "agent resume" →
      fallbackCommand tool command = command := by
  refine ⟨by decide, by decide, ?_⟩
  intro tool command h1 h2 h3
  unfold fallbackCommand
  split_ifs <;> simp_all

/-- C8 witness: the unchanged clause applied to a custom codex command. -/
theorem c8_fallback_rewrite_witness :
    (("codex --model gpt-5" : String) ≠ "claude --continue --permission-mode acceptEdits" ∧
     ("codex --model gpt-5" : String) ≠ "codex resume --last" ∧
     ("codex --model gpt-5" : String) ≠ "agent resume") ∧
    fallbackCommand "codex" "codex --model gpt-5" = "codex --model gpt-5" :=
  ⟨⟨by decide, by decide, by decide⟩,
    c8_fallback_rewrite.2.2 "codex" "codex --model gpt-5" (by decide) (by decide) (by decide)⟩

/-- C9: the yolo substitution (modelled from the spec, the function being
absent from the source snapshot) replaces claude's
`--permission-mode acceptEdits` with `--dangerously-skip-permissions`,
inserts `--yolo` right after the codex binary, and leaves cursor commands
unchanged. -/
theorem c9_yolo_rewrite :
    yoloCommandForTool "claude" "claude --continue --permission-mode acceptEdits"
      = "claude --continue --dangerously-skip-permissions" ∧
    yoloCommandForTool "codex" "codex resume --last" = "codex --yolo resume --last" ∧
    ∀ command : String, yoloCommandForTool "cursor" command = command :=
  ⟨by decide, by decide, fun _ => rfl⟩

theorem slots_norm {α : Type} (targets : List α) :
    buildSlots [] ((List.range (if targets.length > 26 then 26 else targets.length)).zip targets)
      = ((List.range (min targets.length 26)).zip targets).map (fun p => (pickerKey p.1, p.2)) := by
  have hlim : (if targets.length > 26 then 26 else targets.length) = min targets.length 26 := by
    rcases le_or_lt targets.length 26 with h | h
    · rw [if_neg (not_lt.2 h), min_eq_left h]
    · rw [if_pos h, min_eq_right h.le]
  rw [hlim, slots_zip_range targets _ (min_le_right _ _)]

theorem slots_norm_len {α : Type} (targets : List α) (h : targets.length > 26) :
    (((List.range (min targets.length 26)).zip targets).map
      (fun p : Nat × α => (pickerKey p.1, p.2))).length = 26 := by
  simp only [List.length_map, List.length_zip, List.length_range]
  omega

/-- C6: both picker-population routines (`preparePicker`, used by the
attach picker and the kill picker, and `enterTaskKillPicker`) assign the
selection letters a, b, c, ... in insertion order over the candidate
list; with more than 26 candidates exactly the first 26 receive letter
slots and the corresponding "showing first 26" notice is set, and with at
most 26 candidates no notice is set. -/
theorem c6_picker_slots :
    (∀ (m : Model) (w : World) (tool : String) (pickMode : UiMode),
      (preparePicker m w tool pickMode).mode = pickMode ∧
      (preparePicker m w tool pickMode).pickerTargets
        = ((List.range (min (runningToolSessions m w tool).length 26)).zip
            (runningToolSessions m w tool)).map (fun p => (pickerKey p.1, p.2)) ∧
      ((runningToolSessions m w tool).length > 26 →
        (preparePicker m w tool pickMode).pickerTargets.length = 26 ∧
        (preparePicker m w tool pickMode).homeNotice = "showing first 26 sessions") ∧
      ((runningToolSessions m w tool).length ≤ 26 →
        (preparePicker m w tool pickMode).homeNotice = "")) ∧
    (∀ (m : Model) (w : World),
      taskKillCandidates m w ≠ [] →
      (enterTaskKillPicker m w).model.mode = UiMode.modePickKillTask ∧
      (enterTaskKillPicker m w).model.taskKillTargets
        = ((List.range (min (taskKillCandidates m w).length 26)).zip
            (taskKillCandidates m w)).map (fun p => (pickerKey p.1, p.2)) ∧
      ((taskKillCandidates m w).length > 26 →
        (enterTaskKillPicker m w).model.taskKillTargets.length = 26 ∧
        (enterTaskKillPicker m w).model.homeNotice = "showing first 26 tasks") ∧
      ((taskKillCandidates m w).length ≤ 26 →
        (enterTaskKillPicker m w).model.homeNotice = "")) := by
  constructor
  · intro m w tool pickMode
    have hp : preparePicker m w tool pickMode
        = { m with
            mode := pickMode
            pickerTool := tool
            pickerTargets := buildSlots []
              ((List.range (if (runningToolSessions m w tool).length > 26 then 26
                            else (runningToolSessions m w tool).length)).zip
                (runningToolSessions m w tool))
            homeNotice := if (runningToolSessions m w tool).length > 26
                          then "showing first 26 sessions" else "" } := rfl
    refine ⟨by rw [hp], ?_, ?_, ?_⟩
    · rw [hp]
      exact slots_norm (runningToolSessions m w tool)
    · intro hbig
      constructor
      · rw [hp]
        show (buildSlots [] _).length = 26
        rw [slots_norm (runningToolSessions m w tool)]
        exact slots_norm_len _ hbig
      · rw [hp]
        show (if (runningToolSessions m w tool).length > 26
              then "showing first 26 sessions" else "") = _
        rw [if_pos hbig]
    · intro hsmall
      rw [hp]
      show (if (runningToolSessions m w tool).length > 26
            then "showing first 26 sessions" else "") = ""
      rw [if_neg (not_lt.2 hsmall)]
  · intro m w hne
    have hlen : ¬ (taskKillCandidates m w).length = 0 := by
      simpa [List.length_eq_zero] using hne
    have hp : enterTaskKillPicker m w
        = if (taskKillCandidates m w).length = 0
          then ⟨{ m with mode := UiMode.modeHome, homeNotice := "no tasks to kill" }, w, [], false⟩
          else ⟨{ m with
                  mode := UiMode.modePickKillTask
                  taskKillTargets := buildSlots []
                    ((List.range (if (taskKillCandidates m w).length > 26 then 26
                                  else (taskKillCandidates m w).length)).zip
                      (taskKillCandidates m w))
                  homeNotice := if (taskKillCandidates m w).length > 26
                                then "showing first 26 tasks" else "" }, w, [], false⟩ := rfl
    rw [hp, if_neg hlen]
    refine ⟨rfl, slots_norm (taskKillCandidates m w), ?_, ?_⟩
    · intro hbig
      refine ⟨?_, ?_⟩
      · show (buildSlots [] _).length = 26
        rw [slots_norm (taskKillCandidates m w)]
        exact slots_norm_len _ hbig
      · show (if (taskKillCandidates m w).length > 26
              then "showing first 26 tasks" else "") = _
        rw [if_pos hbig]
    · intro hsmall
      show (if (taskKillCandidates m w).length > 26
            then "showing first 26 tasks" else "") = ""
      rw [if_neg (not_lt.2 hsmall)]

/-- C6 witness: the theorem applied to 27 running codex sessions and to a
session with 27 user tasks; both pickers truncate to exactly 26 letter
slots and set the "showing first 26" notice. -/
theorem c6_picker_slots_witness :
    (runningToolSessions c6Model c6World "codex").length > 26 ∧
    (preparePicker c6Model c6World "codex" UiMode.modePickAttach).pickerTargets.length = 26 ∧
    (preparePicker c6Model c6World "codex" UiMode.modePickAttach).homeNotice
      = "showing first 26 sessions" ∧
    taskKillCandidates c6TaskModel c6TaskWorld ≠ [] ∧
    (taskKillCandidates c6TaskModel c6TaskWorld).length > 26 ∧
    (enterTaskKillPicker c6TaskModel c6TaskWorld).model.taskKillTargets.length = 26 ∧
    (enterTaskKillPicker c6TaskModel c6TaskWorld).model.homeNotice = "showing first 26 tasks" := by
  have h1 := (c6_picker_slots.1 c6Model c6World "codex" UiMode.modePickAttach).2.2.1 (by decide)
  have h2 := (c6_picker_slots.2 c6TaskModel c6TaskWorld (by decide)).2.2.1 (by decide)
  exact ⟨by decide, h1.1, h1.2, by decide, by decide, h2.1, h2.2⟩

theorem attachInDirStep_none {m : Model} {w : World} {tool : String}
    (h : w.currentDir = "" ∨ toolSessionsInDir m tool w.currentDir = []) :
    attachInDirStep m w tool = none := by
  rcases h with h | h
  · simp [attachInDirStep, h]
  · simp only [attachInDirStep, h]
    by_cases hc : w.currentDir = "" <;> simp [hc]

theorem createInDirStep_none {m : Model} {w : World} {tool : String}
    (h : w.currentDir = "" ∨ toolSessionsInDir m tool w.currentDir = []) :
    createInDirStep m w tool = none := by
  rcases h with h | h
  · simp [createInDirStep, h]
  · simp only [createInDirStep, h]
    by_cases hc : w.currentDir = "" <;> simp [hc]

theorem createAndAttach_create {m : Model} {w : World} {tool : String}
    (hin : w.currentDir = "" ∨ toolSessionsInDir m tool w.currentDir = [])
    (hcmd : m.commandForTool tool ≠ "")
    (hok : w.createErr (nextSessionName m w tool)
             (fallbackCommand tool (m.commandForTool tool)) = none) :
    (createAndAttachTool m w tool).quit = true ∧
    (createAndAttachTool m w tool).model.shouldAttach = true ∧
    (createAndAttachTool m w tool).model.sessionToAttach = nextSessionName m w tool ∧
    (createAndAttachTool m w tool).effects
      = [Eff.createSession (nextSessionName m w tool)
          (fallbackCommand tool (m.commandForTool tool))] := by
  have heq : createAndAttachTool m w tool
      = (let name := nextSessionName m w tool
         let launch := fallbackCommand tool (m.commandForTool tool)
         let w2 := w.createSession name
         let m2 := if m.sessions.contains name then m
                   else { m with sessions := m.sessions ++ [name] }
         let r := startAndAttachSession m2 w2 name (m.commandForTool tool)
         (⟨r.model, r.world, Eff.createSession name launch :: r.effects, r.quit⟩ : StepResult)) := by
    unfold createAndAttachTool
    rw [createInDirStep_none hin]
    simp only [if_neg hcmd, hok]
  simp only [heq]
  have hlive : (w.createSession (nextSessionName m w tool)).live (nextSessionName m w tool) = true := by
    simp [World.createSession]
  have hs := startAndAttach_live
    (m := if m.sessions.contains (nextSessionName m w tool) then m
          else { m with sessions := m.sessions ++ [nextSessionName m w tool] })
    (c := m.commandForTool tool) hlive
  exact ⟨hs.1, hs.2.1, hs.2.2.1, by rw [hs.2.2.2.2.2.1]⟩

/-- C2 counterexample: with two running codex sessions and exactly one of
them bound to the current directory, pressing the codex key at home does
NOT open an attach-picker over the running sessions — it attaches
directly to the directory-local session.  The claimed "two or more
running ⇒ picker" rule is overridden by the directory pre-check. -/
theorem c2_tool_attach_counterexample :
    c2Model.mode = UiMode.modeHome ∧
    (runningToolSessions c2Model c2World "codex").length = 2 ∧
    (updateHome c2Model c2World (Key.runes "x")).model.mode ≠ UiMode.modePickAttach ∧
    (updateHome c2Model c2World (Key.runes "x")).model.mode = UiMode.modeHome ∧
    (updateHome c2Model c2World (Key.runes "x")).quit = true ∧
    (updateHome c2Model c2World (Key.runes "x")).model.sessionToAttach = "codex" := by
  refine ⟨rfl, by decide, by decide, by decide, by decide, by decide⟩

/-- C2 (amended): pressing an enabled tool key at home routes to
`handleToolAttach`.  When no running session of the tool is bound to the
current directory (or the directory is unknown), the claimed rule holds:
zero running sessions create and attach a fresh `nextSessionName` session
(when the tool is configured and creation succeeds), exactly one running
session is attached directly, and two or more open the attach-picker over
all running sessions of the tool, truncated to 26, with a notice only in
the over-26 case — in particular, two running sessions `codex` and
`codex-2` give slots a → codex and b → codex-2 with no notice.  When
running sessions of the tool ARE bound to the current directory, they
take precedence: exactly one is attached directly, several open a picker
restricted to them with the notice "multiple sessions in this
directory". -/
theorem c2_tool_attach_amended :
    (∀ (m : Model) (w : World), m.mode = UiMode.modeHome →
        updateHome m w (Key.runes "c") = handleToolAttach (refreshBindings m w) w "claude" ∧
        updateHome m w (Key.runes "x") = handleToolAttach (refreshBindings m w) w "codex" ∧
        updateHome m w (Key.runes "u") = handleToolAttach (refreshBindings m w) w "cursor") ∧
    (∀ (m : Model) (w : World) (tool : String),
        w.currentDir = "" ∨ toolSessionsInDir m tool w.currentDir = [] →
        (runningToolSessions m w tool = [] →
          m.commandForTool tool ≠ "" →
          w.createErr (nextSessionName m w tool)
            (fallbackCommand tool (m.commandForTool tool)) = none →
          (handleToolAttach m w tool).quit = true ∧
          (handleToolAttach m w tool).model.shouldAttach = true ∧
          (handleToolAttach m w tool).model.sessionToAttach = nextSessionName m w tool ∧
          (handleToolAttach m w tool).effects
            = [Eff.createSession (nextSessionName m w tool)
                (fallbackCommand tool (m.commandForTool tool))]) ∧
        (∀ one, runningToolSessions m w tool = [one] →
          (handleToolAttach m w tool).quit = true ∧
          (handleToolAttach m w tool).model.shouldAttach = true ∧
          (handleToolAttach m w tool).model.sessionToAttach = one ∧
          (handleToolAttach m w tool).effects = []) ∧
        (2 ≤ (runningToolSessions m w tool).length →
          (handleToolAttach m w tool).quit = false ∧
          (handleToolAttach m w tool).effects = [] ∧
          (handleToolAttach m w tool).model.mode = UiMode.modePickAttach ∧
          (handleToolAttach m w tool).model.pickerTool = tool ∧
          (handleToolAttach m w tool).model.pickerTargets
            = ((List.range (min (runningToolSessions m w tool).length 26)).zip
                (runningToolSessions m w tool)).map (fun p => (pickerKey p.1, p.2)) ∧
          (handleToolAttach m w tool).model.homeNotice
            = (if (runningToolSessions m w tool).length > 26
               then "showing first 26 sessions" else ""))) ∧
    (∀ (m : Model) (w : World) (tool : String),
        (∀ one, toolSessionsInDir (refreshBindings m w) tool w.currentDir = [one] →
          w.currentDir ≠ "" →
          (handleToolAttach (refreshBindings m w) w tool).quit = true ∧
          (handleToolAttach (refreshBindings m w) w tool).model.shouldAttach = true ∧
          (handleToolAttach (refreshBindings m w) w tool).model.sessionToAttach = one ∧
          (handleToolAttach (refreshBindings m w) w tool).effects = []) ∧
        (2 ≤ (toolSessionsInDir (refreshBindings m w) tool w.currentDir).length →
          w.currentDir ≠ "" →
          (handleToolAttach (refreshBindings m w) w tool).quit = false ∧
          (handleToolAttach (refreshBindings m w) w tool).model.mode = UiMode.modePickAttach ∧
          (handleToolAttach (refreshBindings m w) w tool).model.homeNotice
            = "multiple sessions in this directory")) := by
  refine ⟨?_, ?_, ?_⟩
  · intro m w h
    refine ⟨?_, ?_, ?_⟩ <;> simp [updateHome, updateHomeKeys, keyString, refreshBindings_mode, h]
  · intro m w tool hin
    have hnone := attachInDirStep_none hin
    refine ⟨?_, ?_, ?_⟩
    · intro ht hcmd hok
      have heq : handleToolAttach m w tool = createAndAttachTool m w tool := by
        unfold handleToolAttach
        rw [hnone, ht]
      rw [heq]
      exact createAndAttach_create hin hcmd hok
    · intro one ht
      have heq : handleToolAttach m w tool = startAndAttachSession m w one "" := by
        unfold handleToolAttach
        rw [hnone, ht]
      have hlive : w.live one = true :=
        live_of_mem_runningToolSessions (by rw [ht]; exact List.mem_singleton.2 rfl)
      have hs := startAndAttach_live (m := m) (w := w) (c := "") hlive
      rw [heq]
      exact ⟨hs.1, hs.2.1, hs.2.2.1, hs.2.2.2.2.2.1⟩
    · intro hlen
      cases hl : runningToolSessions m w tool with
      | nil => rw [hl] at hlen; simp at hlen
      | cons a tail =>
        cases tail with
        | nil => rw [hl] at hlen; simp at hlen
        | cons b rest =>
          rw [← hl]
          have heq : handleToolAttach m w tool
              = ⟨preparePicker m w tool UiMode.modePickAttach, w, [], false⟩ := by
            unfold handleToolAttach
            rw [hnone, hl]
          rw [heq]
          have hp : preparePicker m w tool UiMode.modePickAttach
              = { m with
                  mode := UiMode.modePickAttach
                  pickerTool := tool
                  pickerTargets := buildSlots []
                    ((List.range (if (runningToolSessions m w tool).length > 26 then 26
                                  else (runningToolSessions m w tool).length)).zip
                      (runningToolSessions m w tool))
                  homeNotice := if (runningToolSessions m w tool).length > 26
                                then "showing first 26 sessions" else "" } := rfl
          refine ⟨rfl, rfl, by rw [hp], by rw [hp], ?_, by rw [hp]⟩
          show (preparePicker m w tool UiMode.modePickAttach).pickerTargets = _
          rw [hp]
          exact slots_norm (runningToolSessions m w tool)
  · intro m w tool
    constructor
    · intro one h1 hc
      have hlive : w.live one = true :=
        live_of_mem_toolSessionsInDir (by rw [h1]; exact List.mem_singleton.2 rfl)
      have hstep : attachInDirStep (refreshBindings m w) w tool
          = some (startAndAttachSession (refreshBindings m w) w one "") := by
        simp only [attachInDirStep]
        rw [if_pos hc, h1]
      have heq : handleToolAttach (refreshBindings m w) w tool
          = startAndAttachSession (refreshBindings m w) w one "" := by
        unfold handleToolAttach
        rw [hstep]
      have hs := startAndAttach_live (m := refreshBindings m w) (w := w) (c := "") hlive
      rw [heq]
      exact ⟨hs.1, hs.2.1, hs.2.2.1, hs.2.2.2.2.2.1⟩
    · intro hlen hc
      cases hl : toolSessionsInDir (refreshBindings m w) tool w.currentDir with
      | nil => rw [hl] at hlen; simp at hlen
      | cons a tail =>
        cases tail with
        | nil => rw [hl] at hlen; simp at hlen
        | cons b rest =>
          have hstep : attachInDirStep (refreshBindings m w) w tool
              = some ⟨{ refreshBindings m w with
                        mode := UiMode.modePickAttach
                        pickerTool := tool
                        pickerTargets := buildSlots [] (a :: b :: rest).enum
                        homeNotice := "multiple sessions in this directory" }, w, [], false⟩ := by
            simp only [attachInDirStep]
            rw [if_pos hc, hl]
          have heq : handleToolAttach (refreshBindings m w) w tool
              = ⟨{ refreshBindings m w with
                   mode := UiMode.modePickAttach
                   pickerTool := tool
                   pickerTargets := buildSlots [] (a :: b :: rest).enum
                   homeNotice := "multiple sessions in this directory" }, w, [], false⟩ := by
            unfold handleToolAttach
            rw [hstep]
          rw [heq]
          exact ⟨rfl, rfl, rfl⟩

/-- C2 witness: spec scenario 3 — two running codex sessions `codex` and
`codex-2`, neither bound to the current directory; pressing the codex key
at home opens the attach-picker with slot a → codex and slot b → codex-2
and no notice. -/
theorem c2_tool_attach_witness :
    (updateHome c2Model c2WorldAway (Key.runes "x")).model.mode = UiMode.modePickAttach ∧
    (updateHome c2Model c2WorldAway (Key.runes "x")).model.pickerTargets
      = [("a", "codex"), ("b", "codex-2")] ∧
    (updateHome c2Model c2WorldAway (Key.runes "x")).model.homeNotice = "" ∧
    (updateHome c2Model c2WorldAway (Key.runes "x")).quit = false := by
  have hroute := (c2_tool_attach_amended.1 c2Model c2WorldAway rfl).2.1
  have hbranch := (c2_tool_attach_amended.2.1 (refreshBindings c2Model c2WorldAway) c2WorldAway
      "codex" (Or.inr (by decide))).2.2 (by decide)
  rw [hroute]
  refine ⟨hbranch.2.2.1, ?_, ?_, hbranch.1⟩
  · rw [hbranch.2.2.2.2.1]
    decide
  · rw [hbranch.2.2.2.2.2]
    decide

/-- C10: pressing Ctrl+C is handled before any mode dispatch: from every
mode it issues exactly the kill-server command and quits the UI. -/
theorem c10_ctrl_c_kills_everywhere (m : Model) (w : World) :
    (updateHome m w Key.ctrlC).effects = [Eff.killServer] ∧
    (updateHome m w Key.ctrlC).quit = true ∧
    (updateHome m w Key.ctrlC).model.mode = m.mode ∧
    (updateHome m w Key.ctrlC).world = w := by
  unfold updateHome
  simp [keyString, refreshBindings]

end Pocketbot
